import Mathlib

/-!
Verification of the authorization and session-directory core of telebash.

The embedding follows `src/auth_manager.rs` and `src/file_manager.rs`:

* `AuthManager` carries the in-memory authorized set, the contents of the
  durable users file (so that persistence is observable), and the
  `access_codes` map (`code -> user_id`, a `HashMap<String, u64>` in the
  source, embedded as `String → Option Nat`).
* File I/O is embedded explicitly: the durable file is a `FileContent`
  value, and the success of `fs::write` is a boolean parameter `writeOk`
  of the operations that write.
* The filesystem seen by `FileManager` is a finite symlink-free tree
  `FsNode`; paths are component lists of an absolute path; resolution
  walks component by component as the kernel does, with `".."` moving to
  the parent (the root being its own parent).
* Methods taking `&mut self` in Rust return `result × new state`, so a
  failing call still reports the state it leaves behind.
-/

namespace Telebash

/-- The error enum of `src/errors.rs` (messages embedded without their
dynamic `{}` payloads). -/
inductive BotError
  | ConfigError (msg : String)
  | AuthError (msg : String)
  | FileError (msg : String)
  | LogError (msg : String)
  | TelegramError (msg : String)
  | SerializationError (msg : String)
deriving DecidableEq, Repr

/-- `AuthorizedUsers { users: HashSet<Id> }`: the struct deserialized from
the users file (`[123, 456]`-style id lists, as the tests in
`auth_manager.rs` show). -/
structure AuthorizedUsers where
  users : Finset Nat
deriving DecidableEq

/-- Contents of the durable users file as seen through
`fs::read_to_string` plus `serde_json::from_str`: absent, present but
unparsable, or parsing to an `AuthorizedUsers` value. -/
inductive FileContent
  | missing
  | malformed
  | good (users : AuthorizedUsers)
deriving DecidableEq

/-- State of `AuthManager` together with the durable file it owns. -/
structure AuthManager where
  authorized_users : AuthorizedUsers
  users_file : FileContent
  access_codes : String → Option Nat

/-- `AuthManager::load_authorized_users`: a readable file is parsed
(failure is a typed `AuthError`), an unreadable/absent file yields the
empty set. -/
def AuthManager.load_authorized_users (file : FileContent) :
    Except BotError AuthorizedUsers :=
  match file with
  | .good users => .ok users
  | .malformed => .error (BotError.AuthError "Failed to parse auth file")
  | .missing => .ok ⟨∅⟩

/-- `AuthManager::new`: load the users file, start with no access codes. -/
def AuthManager.new (file : FileContent) : Except BotError AuthManager :=
  match AuthManager.load_authorized_users file with
  | .ok authorized_users => .ok ⟨authorized_users, file, fun _ => none⟩
  | .error e => .error e

/-- `AuthManager::save_authorized_users`: serialize (which cannot fail for
this data type) and `fs::write` the whole set; `writeOk` is whether the
write succeeds, a failed write is a typed `AuthError`. -/
def AuthManager.save_authorized_users (m : AuthManager) (writeOk : Bool) :
    Except BotError AuthManager :=
  if writeOk then .ok { m with users_file := .good m.authorized_users }
  else .error (BotError.AuthError "Failed to save auth file")

/-- `AuthManager::generate_access_code`: `random_number` stands for the
value drawn from `rng.random_range(100000..=999999)`; its decimal string
is inserted into `access_codes` keyed by the code string. -/
def AuthManager.generate_access_code (m : AuthManager) (random_number : Nat)
    (user_id : Nat) : String × AuthManager :=
  let code := toString random_number
  (code,
   { m with
      access_codes := fun c => if c = code then some user_id else m.access_codes c })

/-- `AuthManager::verify_access_code`: on a code bound to the claimed id,
insert the id, remove the code, persist (propagating a write error after
the in-memory mutation); otherwise `Ok(false)` with no mutation. -/
def AuthManager.verify_access_code (m : AuthManager) (writeOk : Bool)
    (code : String) (user_id : Nat) : Except BotError Bool × AuthManager :=
  match m.access_codes code with
  | some stored_user_id =>
    if stored_user_id = user_id then
      let m1 : AuthManager :=
        { m with
           authorized_users := ⟨insert user_id m.authorized_users.users⟩,
           access_codes := fun c => if c = code then none else m.access_codes c }
      match m1.save_authorized_users writeOk with
      | .ok m2 => (.ok true, m2)
      | .error e => (.error e, m1)
    else (.ok false, m)
  | none => (.ok false, m)

/-- `AuthManager::is_authorized`: pure membership lookup. -/
def AuthManager.is_authorized (m : AuthManager) (user_id : Nat) : Bool :=
  user_id ∈ m.authorized_users.users

/-- Sample manager state for concrete witnesses: identity 7 holds the
unconsumed code "123456", nobody is authorized yet. -/
def sampleAuth : AuthManager :=
  ⟨⟨∅⟩, .missing, fun c => if c = "123456" then some 7 else none⟩

/-- A freshly constructed manager (no codes, no authorized users). -/
def freshAuth : AuthManager := ⟨⟨∅⟩, .missing, fun _ => none⟩

/-- An absolute path, as the list of its components below the root; `[]`
is `/`. A component may itself be `".."` (Rust `PathBuf::join` keeps
`ParentDir` components; only the kernel-style resolution below interprets
them). -/
abbrev Path := List String

/-- Split a string on slashes into nonempty components (structural
recursion over the characters, so it computes in the kernel). -/
def splitPathAux : List Char → List Char → List (List Char)
  | [], acc => [acc.reverse]
  | c :: cs, acc =>
    if c = '/' then acc.reverse :: splitPathAux cs []
    else splitPathAux cs (c :: acc)

/-- Components of a path string: split on `/`, dropping empty pieces. -/
def splitPath (s : String) : List String :=
  ((splitPathAux s.data []).map fun cs => String.mk cs).filter fun c => c ≠ ""

/-- Whether a path string is absolute (starts with a slash). -/
def isAbsolute (s : String) : Bool :=
  match s.data with
  | [] => false
  | c :: _ => c = '/'

/-- Rust `PathBuf::join`: an absolute argument replaces the whole path,
otherwise its components are appended. -/
def Path.join (p : Path) (s : String) : Path :=
  if isAbsolute s then splitPath s else p ++ splitPath s

/-- Rust `Path::parent`: the root has no parent, otherwise drop the last
component. -/
def Path.parent (p : Path) : Option Path :=
  match p with
  | [] => none
  | _ => some p.dropLast

/-- A finite, symlink-free filesystem tree: files carry their byte size,
directories their named entries. -/
inductive FsNode
  | file (size : Nat)
  | dir (entries : List (String × FsNode))

/-- Look a name up in a directory's entry list. -/
def findEntry : List (String × FsNode) → String → Option FsNode
  | [], _ => none
  | (n, node) :: rest, name =>
    if n = name then some node else findEntry rest name

/-- Plain descent along `".."`-free components: each component must name
an entry of the current directory. -/
def FsNode.walk : FsNode → Path → Option FsNode
  | node, [] => some node
  | .dir es, c :: rest =>
    match findEntry es c with
    | some n => n.walk rest
    | none => none
  | .file _, _ :: _ => none

/-- Kernel-style path resolution from the root `fs`: consume components
one at a time keeping the normalized stack resolved so far; the current
stack must resolve to a directory before another component is consumed;
`".."` pops the stack (the root is its own parent). Returns the
normalized, `".."`-free stack of the target when every step succeeds. -/
def resolveComps (fs : FsNode) : Path → Path → Option Path
  | stack, [] => some stack
  | stack, c :: rest =>
    match fs.walk stack with
    | some (.dir es) =>
      if c = ".." then resolveComps fs stack.dropLast rest
      else
        match findEntry es c with
        | some _ => resolveComps fs (stack ++ [c]) rest
        | none => none
    | _ => none

/-- Rust `Path::canonicalize` in a symlink-free world: resolution of the
path against the tree, erring (`none`) when the path does not exist. -/
def canonicalize (fs : FsNode) (p : Path) : Option Path :=
  resolveComps fs [] p

/-- The node a path resolves to, if any. -/
def resolveNode (fs : FsNode) (p : Path) : Option FsNode :=
  (canonicalize fs p).bind fun t => fs.walk t

/-- Rust `Path::is_dir`: the path resolves to a directory. -/
def is_dir (fs : FsNode) (p : Path) : Bool :=
  match resolveNode fs p with
  | some (.dir _) => true
  | _ => false

/-- Rust `Path::is_file`: the path resolves to a regular file. -/
def is_file_path (fs : FsNode) (p : Path) : Bool :=
  match resolveNode fs p with
  | some (.file _) => true
  | _ => false

/-- Rust `Path::exists`: the path resolves to something. -/
def path_exists (fs : FsNode) (p : Path) : Bool :=
  (resolveNode fs p).isSome

/-- State of `FileManager`: the per-user session map
(`HashMap<Id, PathBuf>` in the source, embedded as a function). -/
structure FileManager where
  sessions : Nat → Option Path

/-- `FileManager::new`. -/
def FileManager.new : FileManager := ⟨fun _ => none⟩

/-- `FileManager::get_current_directory_for_user`: the session entry, or
the default root `/` for an unknown user. -/
def FileManager.get_current_directory_for_user (fm : FileManager)
    (user_id : Nat) : Path :=
  (fm.sessions user_id).getD []

/-- `FileManager::get_current_directory`. -/
def FileManager.get_current_directory (fm : FileManager) (user_id : Nat) :
    Path :=
  fm.get_current_directory_for_user user_id

/-- `FileManager::change_directory` against the filesystem `fs`: `".."`
goes to the parent (staying put at the root), anything else is joined;
the candidate must be a directory, and its canonical form replaces the
session entry; otherwise an error and no mutation. -/
def FileManager.change_directory (fs : FsNode) (fm : FileManager)
    (user_id : Nat) (path : String) : Except BotError Unit × FileManager :=
  let current_dir := fm.get_current_directory_for_user user_id
  let new_path :=
    if path = ".." then (Path.parent current_dir).getD current_dir
    else Path.join current_dir path
  if is_dir fs new_path then
    match canonicalize fs new_path with
    | some canonical_path =>
      (.ok (),
       ⟨fun u => if u = user_id then some canonical_path else fm.sessions u⟩)
    | none => (.error (BotError.FileError "Failed to canonicalize path"), fm)
  else (.error (BotError.FileError "Directory does not exist"), fm)

/-- `FileManager::get_file_path`: plain join on the current directory. -/
def FileManager.get_file_path (fm : FileManager) (user_id : Nat)
    (filename : String) : Path :=
  Path.join (fm.get_current_directory_for_user user_id) filename

/-- `FileManager::file_exists`: join and probe the filesystem. -/
def FileManager.file_exists (fs : FsNode) (fm : FileManager) (user_id : Nat)
    (filename : String) : Bool :=
  path_exists fs (Path.join (fm.get_current_directory_for_user user_id) filename)

/-- `FileManager::is_file`: join and probe the filesystem. -/
def FileManager.is_file (fs : FsNode) (fm : FileManager) (user_id : Nat)
    (filename : String) : Bool :=
  is_file_path fs (Path.join (fm.get_current_directory_for_user user_id) filename)

/-- Concrete tree `/home/subdir` for the directory round-trip witness. -/
def nestFs : FsNode := .dir [("home", .dir [("subdir", .dir [])])]

/-- Session map putting identity 1 in `/home`. -/
def nestFm : FileManager := ⟨fun u => if u = 1 then some ["home"] else none⟩

/-- Concrete tree with `/home` (a directory) and `/secret` (a 5-byte
file) for the path-escape theorem. -/
def escapeFs : FsNode := .dir [("home", .dir []), ("secret", .file 5)]

/-- Session map putting identity 1 in `/home`. -/
def escapeFm : FileManager := ⟨fun u => if u = 1 then some ["home"] else none⟩

/-- C1: if the code table maps `c` to exactly `i`, then `verify_code(c, i)`
(with the durable write succeeding) inserts `i`'s record into the
authorized set, removes `c` from the code table, persists the full
authorized set to the users file, returns `Ok(true)`, and any later
`verify_code(c, j)` on the resulting state returns `Ok(false)`. -/
theorem verify_access_code_consumes_and_persists (m : AuthManager)
    (c : String) (i : Nat) (h : m.access_codes c = some i) :
    ∃ m', m.verify_access_code true c i = (.ok true, m')
      ∧ m'.is_authorized i = true
      ∧ m'.authorized_users.users = insert i m.authorized_users.users
      ∧ m'.access_codes c = none
      ∧ m'.users_file = .good m'.authorized_users
      ∧ ∀ (j : Nat) (w : Bool), (m'.verify_access_code w c j).1 = .ok false := by
  refine ⟨{ authorized_users := ⟨insert i m.authorized_users.users⟩,
            users_file := .good ⟨insert i m.authorized_users.users⟩,
            access_codes := fun c' => if c' = c then none else m.access_codes c' },
          ?_, ?_, rfl, by simp, rfl, ?_⟩
  · simp [AuthManager.verify_access_code, h, AuthManager.save_authorized_users]
  · simp [AuthManager.is_authorized]
  · intro j w
    simp [AuthManager.verify_access_code]

/-- C1 witness at a concrete state. -/
theorem verify_access_code_consumes_and_persists_witness :
    sampleAuth.access_codes "123456" = some 7
  ∧ ∃ m', sampleAuth.verify_access_code true "123456" 7 = (.ok true, m')
      ∧ m'.is_authorized 7 = true
      ∧ m'.authorized_users.users = insert 7 sampleAuth.authorized_users.users
      ∧ m'.access_codes "123456" = none
      ∧ m'.users_file = .good m'.authorized_users
      ∧ ∀ (j : Nat) (w : Bool),
          (m'.verify_access_code w "123456" j).1 = .ok false :=
  ⟨rfl, verify_access_code_consumes_and_persists sampleAuth "123456" 7 rfl⟩

/-- C2: if `c` is absent from the code table or bound to a different
identity, `verify_code(c, i)` returns the same value `Ok(false)` in both
sub-cases and leaves the state entirely unchanged; in particular for
`A ≠ B`, after `generate_code(A)` yields `c`, `verify_code(c, B)` is
`Ok(false)` with no mutation and `B` stays unauthorized. -/
theorem verify_access_code_failure_no_mutation :
    (∀ (m : AuthManager) (w : Bool) (c : String) (i : Nat),
        (m.access_codes c = none ∨ ∃ k, m.access_codes c = some k ∧ k ≠ i) →
        m.verify_access_code w c i = (.ok false, m))
  ∧ (∀ (m : AuthManager) (w : Bool) (n A B : Nat), A ≠ B →
        m.is_authorized B = false →
        (m.generate_access_code n A).2.verify_access_code w
            (m.generate_access_code n A).1 B
          = (.ok false, (m.generate_access_code n A).2)
        ∧ ((m.generate_access_code n A).2).is_authorized B = false) := by
  constructor
  · intro m w c i h
    rcases h with habs | ⟨k, hk, hne⟩
    · simp [AuthManager.verify_access_code, habs]
    · simp [AuthManager.verify_access_code, hk, hne]
  · intro m w n A B hAB hB
    refine ⟨?_, ?_⟩
    · simp [AuthManager.verify_access_code, AuthManager.generate_access_code, hAB]
    · simpa [AuthManager.generate_access_code, AuthManager.is_authorized] using hB

/-- C2 witness at concrete states: an absent code, and identity 5 trying
identity 7's freshly generated code. -/
theorem verify_access_code_failure_no_mutation_witness :
    (sampleAuth.verify_access_code true "000000" 5 = (.ok false, sampleAuth))
  ∧ ((freshAuth.generate_access_code 100000 7).2.verify_access_code true
        (freshAuth.generate_access_code 100000 7).1 5
      = (.ok false, (freshAuth.generate_access_code 100000 7).2)
     ∧ ((freshAuth.generate_access_code 100000 7).2).is_authorized 5 = false) :=
  ⟨verify_access_code_failure_no_mutation.1 sampleAuth true "000000" 5 (Or.inl rfl),
   verify_access_code_failure_no_mutation.2 freshAuth true 100000 7 5
     (by decide) rfl⟩

/-- C3 counterexample: after `generate_code(7)` twice (random draws 100000
then 100001), the earlier code "100000" still maps to identity 7 and still
verifies — it is not the case that only the most recently generated code
is bound to the identity. -/
theorem generate_access_code_keeps_earlier_code :
    ((freshAuth.generate_access_code 100000 7).2.generate_access_code
        100001 7).2.access_codes (freshAuth.generate_access_code 100000 7).1
      = some 7
  ∧ (((freshAuth.generate_access_code 100000 7).2.generate_access_code
        100001 7).2.verify_access_code true
        (freshAuth.generate_access_code 100000 7).1 7).1 = .ok true := by
  constructor
  · decide
  · rfl

/-- C3 amended: `generate_code(i)` binds the generated code string to `i`
and changes no other code string's binding (so other identities' codes are
untouched, but an earlier, different code for `i` remains bound); the
authorized set and the durable file are untouched. -/
theorem generate_access_code_overwrites_by_code_only
    (m : AuthManager) (n : Nat) (i : Nat) :
    ((m.generate_access_code n i).2).access_codes
        (m.generate_access_code n i).1 = some i
  ∧ (∀ c', c' ≠ (m.generate_access_code n i).1 →
        ((m.generate_access_code n i).2).access_codes c' = m.access_codes c')
  ∧ ((m.generate_access_code n i).2).authorized_users = m.authorized_users
  ∧ ((m.generate_access_code n i).2).users_file = m.users_file := by
  refine ⟨?_, ?_, rfl, rfl⟩
  · simp [AuthManager.generate_access_code]
  · intro c' hc
    simp only [AuthManager.generate_access_code] at hc ⊢
    simp [hc]

/-- C3 amended witness: the binding of an unrelated code string survives a
concrete `generate_code` call. -/
theorem generate_access_code_overwrites_by_code_only_witness :
    ("999999" ≠ (freshAuth.generate_access_code 100000 7).1)
  ∧ ((freshAuth.generate_access_code 100000 7).2).access_codes "999999"
      = freshAuth.access_codes "999999" :=
  ⟨by decide,
   (generate_access_code_overwrites_by_code_only freshAuth 100000 7).2.1
     "999999" (by decide)⟩

/-- C4: when the durable write fails during a correct redemption,
`verify_code` surfaces the typed storage error, yet the in-memory state is
not rolled back: the identity is authorized, the code is gone from the
table, and the file on disk is unchanged. -/
theorem verify_access_code_write_failure (m : AuthManager) (c : String)
    (i : Nat) (h : m.access_codes c = some i) :
    (m.verify_access_code false c i).1
      = .error (BotError.AuthError "Failed to save auth file")
  ∧ ((m.verify_access_code false c i).2).is_authorized i = true
  ∧ ((m.verify_access_code false c i).2).access_codes c = none
  ∧ ((m.verify_access_code false c i).2).users_file = m.users_file := by
  simp [AuthManager.verify_access_code, h, AuthManager.save_authorized_users,
    AuthManager.is_authorized]

/-- C4 witness at a concrete state. -/
theorem verify_access_code_write_failure_witness :
    sampleAuth.access_codes "123456" = some 7
  ∧ (sampleAuth.verify_access_code false "123456" 7).1
      = .error (BotError.AuthError "Failed to save auth file")
  ∧ ((sampleAuth.verify_access_code false "123456" 7).2).is_authorized 7 = true :=
  ⟨rfl, (verify_access_code_write_failure sampleAuth "123456" 7 rfl).1,
   (verify_access_code_write_failure sampleAuth "123456" 7 rfl).2.1⟩

/-- Plain descent splits over list append. -/
theorem walk_append (fs : FsNode) (s t : Path) :
    fs.walk (s ++ t) = (fs.walk s).bind fun n => n.walk t := by
  induction s generalizing fs with
  | nil => simp [FsNode.walk]
  | cons c s' ih =>
    cases fs with
    | file sz => simp [FsNode.walk]
    | dir es =>
      simp only [List.cons_append, FsNode.walk]
      cases findEntry es c with
      | none => simp
      | some n => simpa using ih n

/-- If an extended path walks, so does the original. -/
theorem walk_isSome_of_append (fs : FsNode) (s t : Path)
    (h : (fs.walk (s ++ t)).isSome) : (fs.walk s).isSome := by
  rw [walk_append] at h
  cases hw : fs.walk s with
  | none => rw [hw] at h; simp at h
  | some n => simp

/-- If a path walks, so does its `dropLast` prefix. -/
theorem walk_dropLast_isSome (fs : FsNode) (s : Path)
    (h : (fs.walk s).isSome) : (fs.walk s.dropLast).isSome := by
  by_cases hs : s = []
  · subst hs; simpa using h
  · have hsplit := List.dropLast_append_getLast hs
    exact walk_isSome_of_append fs s.dropLast [s.getLast hs]
      (by rw [hsplit]; exact h)

/-- Inversion of one walking step. -/
theorem walk_cons_isSome {node : FsNode} {c : String} {rest : Path}
    (h : (node.walk (c :: rest)).isSome) :
    ∃ es n, node = .dir es ∧ findEntry es c = some n
      ∧ (n.walk rest).isSome := by
  cases node with
  | file sz => simp [FsNode.walk] at h
  | dir es =>
    cases hf : findEntry es c with
    | none => simp [FsNode.walk, hf] at h
    | some n => exact ⟨es, n, rfl, hf, by simpa [FsNode.walk, hf] using h⟩

/-- Step equation: resolution from an unwalkable stack fails. -/
theorem resolveComps_cons_stuck (fs : FsNode) {s : Path} {c : String}
    {rest : Path} (hw : ∀ es, fs.walk s ≠ some (.dir es)) :
    resolveComps fs s (c :: rest) = none := by
  rw [resolveComps]
  cases hwn : fs.walk s with
  | none => rfl
  | some node =>
    cases node with
    | file sz => rfl
    | dir es => exact absurd hwn (hw es)

/-- Step equation: resolution from a directory stack, `".."` case. -/
theorem resolveComps_cons_parent (fs : FsNode) {s : Path}
    {es : List (String × FsNode)} (hw : fs.walk s = some (.dir es))
    (rest : Path) :
    resolveComps fs s (".." :: rest) = resolveComps fs s.dropLast rest := by
  rw [resolveComps, hw]
  rfl

/-- Step equation: resolution from a directory stack, child case. -/
theorem resolveComps_cons_child (fs : FsNode) {s : Path}
    {es : List (String × FsNode)} (hw : fs.walk s = some (.dir es))
    {c : String} (hc : c ≠ "..") (rest : Path) :
    resolveComps fs s (c :: rest)
      = match findEntry es c with
        | some _ => resolveComps fs (s ++ [c]) rest
        | none => none := by
  rw [resolveComps, hw]
  show (if c = ".." then resolveComps fs s.dropLast rest
        else match findEntry es c with
             | some _ => resolveComps fs (s ++ [c]) rest
             | none => none)
      = _
  rw [if_neg hc]

/-- Resolution starting from a walkable stack lands on a walkable stack. -/
theorem resolveComps_walk_isSome (fs : FsNode) :
    ∀ (p s t : Path), resolveComps fs s p = some t →
      (fs.walk s).isSome → (fs.walk t).isSome := by
  intro p
  induction p with
  | nil =>
    intro s t h hs
    simp only [resolveComps, Option.some.injEq] at h
    exact h ▸ hs
  | cons c rest ih =>
    intro s t h hs
    rcases hwn : fs.walk s with _ | node
    · rw [resolveComps_cons_stuck fs (by simp [hwn])] at h
      exact absurd h (by simp)
    rcases node with sz | es
    · rw [resolveComps_cons_stuck fs (by simp [hwn])] at h
      exact absurd h (by simp)
    by_cases hc : c = ".."
    · subst hc
      rw [resolveComps_cons_parent fs hwn] at h
      exact ih _ _ h (walk_dropLast_isSome fs s hs)
    · rw [resolveComps_cons_child fs hwn hc] at h
      rcases hf : findEntry es c with _ | n
      · rw [hf] at h
        exact absurd h (by simp)
      · rw [hf] at h
        refine ih _ _ h ?_
        rw [walk_append, hwn]
        simp [FsNode.walk, hf]

/-- Resolution starting from a `".."`-free stack lands on a `".."`-free
stack (nothing else is ever pushed). -/
theorem resolveComps_not_parent_mem (fs : FsNode) :
    ∀ (p s t : Path), resolveComps fs s p = some t →
      ".." ∉ s → ".." ∉ t := by
  intro p
  induction p with
  | nil =>
    intro s t h hs
    simp only [resolveComps, Option.some.injEq] at h
    exact h ▸ hs
  | cons c rest ih =>
    intro s t h hs
    rcases hwn : fs.walk s with _ | node
    · rw [resolveComps_cons_stuck fs (by simp [hwn])] at h
      exact absurd h (by simp)
    rcases node with sz | es
    · rw [resolveComps_cons_stuck fs (by simp [hwn])] at h
      exact absurd h (by simp)
    by_cases hc : c = ".."
    · subst hc
      rw [resolveComps_cons_parent fs hwn] at h
      refine ih _ _ h fun hmem => hs ?_
      exact (List.dropLast_sublist s).mem hmem
    · rw [resolveComps_cons_child fs hwn hc] at h
      rcases hf : findEntry es c with _ | n
      · rw [hf] at h
        exact absurd h (by simp)
      · rw [hf] at h
        refine ih _ _ h ?_
        intro hmem
        rcases List.mem_append.mp hmem with hmem | hmem
        · exact hs hmem
        · exact hc (List.mem_singleton.mp hmem).symm

/-- Resolution distributes over appending components. -/
theorem resolveComps_append (fs : FsNode) :
    ∀ (p q s : Path), resolveComps fs s (p ++ q)
      = (resolveComps fs s p).bind fun t => resolveComps fs t q := by
  intro p
  induction p with
  | nil => intro q s; simp [resolveComps]
  | cons c rest ih =>
    intro q s
    rw [List.cons_append]
    rcases hwn : fs.walk s with _ | node
    · rw [resolveComps_cons_stuck fs (by simp [hwn]),
        @resolveComps_cons_stuck fs s c rest (by simp [hwn])]
      rfl
    rcases node with sz | es
    · rw [resolveComps_cons_stuck fs (by simp [hwn]),
        @resolveComps_cons_stuck fs s c rest (by simp [hwn])]
      rfl
    by_cases hc : c = ".."
    · subst hc
      rw [resolveComps_cons_parent fs hwn, resolveComps_cons_parent fs hwn,
        ih]
    · rw [resolveComps_cons_child fs hwn hc, resolveComps_cons_child fs hwn hc]
      rcases hf : findEntry es c with _ | n
      · rfl
      · exact ih q (s ++ [c])

/-- A `".."`-free path that walks resolves to itself. -/
theorem resolveComps_of_plain (fs : FsNode) :
    ∀ (p s : Path), ".." ∉ p → (fs.walk (s ++ p)).isSome →
      resolveComps fs s p = some (s ++ p) := by
  intro p
  induction p with
  | nil => intro s _ _; simp [resolveComps]
  | cons c rest ih =>
    intro s hp hw
    have hs : (fs.walk s).isSome := walk_isSome_of_append fs s (c :: rest) hw
    rcases Option.isSome_iff_exists.mp hs with ⟨node, hnode⟩
    have hrest : (node.walk (c :: rest)).isSome := by
      rw [walk_append, hnode] at hw
      simpa using hw
    rcases walk_cons_isSome hrest with ⟨es, n, hdir, hf, hn⟩
    subst hdir
    have hc : c ≠ ".." := fun hceq => hp (hceq ▸ List.mem_cons_self c rest)
    rw [resolveComps_cons_child fs hnode hc, hf]
    have hrec : resolveComps fs (s ++ [c]) rest = some ((s ++ [c]) ++ rest) := by
      refine ih (s ++ [c]) (fun hmem => hp (List.mem_cons_of_mem c hmem)) ?_
      rw [List.append_assoc]
      simpa using hw
    rw [hrec]
    simp

/-- A canonicalized path canonicalizes to itself and walks. -/
theorem canonicalize_fixed (fs : FsNode) (p S : Path)
    (h : canonicalize fs p = some S) :
    canonicalize fs S = some S ∧ (fs.walk S).isSome := by
  have hwalk : (fs.walk S).isSome :=
    resolveComps_walk_isSome fs p [] S h (by simp [FsNode.walk])
  have hplain : ".." ∉ S :=
    resolveComps_not_parent_mem fs p [] S h (by simp)
  refine ⟨?_, hwalk⟩
  have hfix := resolveComps_of_plain fs S [] hplain (by simpa using hwalk)
  simpa [canonicalize] using hfix

/-- Extending a canonicalizable path by one existing child component. -/
theorem canonicalize_child (fs : FsNode) (d S : Path) (c : String)
    (hc : c ≠ "..") (h : canonicalize fs d = some S)
    (es : List (String × FsNode)) (n : FsNode)
    (hS : fs.walk S = some (.dir es)) (hf : findEntry es c = some n) :
    canonicalize fs (d ++ [c]) = some (S ++ [c])
    ∧ fs.walk (S ++ [c]) = some n := by
  constructor
  · rw [canonicalize, resolveComps_append fs d [c] []]
    rw [show resolveComps fs [] d = some S from h]
    show resolveComps fs S [c] = some (S ++ [c])
    rw [resolveComps_cons_child fs hS hc, hf]
    rfl
  · rw [walk_append, hS]
    simp [FsNode.walk, hf]

/-- C5: constructing the manager from a missing file succeeds with an empty
authorized set; from a present but malformed file it fails with a typed
error. -/
theorem auth_manager_new_missing_vs_malformed :
    (∃ m, AuthManager.new .missing = .ok m ∧ m.authorized_users.users = ∅)
  ∧ AuthManager.new .malformed
      = .error (BotError.AuthError "Failed to parse auth file") :=
  ⟨⟨⟨⟨∅⟩, .missing, fun _ => none⟩, rfl, rfl⟩, rfl⟩

/-- Appending one component to a path moves its parent to the path. -/
theorem parent_concat (S : Path) (c : String) :
    Path.parent (S ++ [c]) = some S := by
  have hne : S ++ [c] ≠ [] := by simp
  have hstep : Path.parent (S ++ [c]) = some ((S ++ [c]).dropLast) := by
    cases hsc : S ++ [c] with
    | nil => exact absurd hsc hne
    | cons y ys => simp [Path.parent]
  rw [hstep, List.dropLast_concat]

/-- C6: when the candidate directory (parent of the current directory for
the parent-marker token, otherwise the join of the token) is missing or
not a directory, `change_directory` returns the "Directory does not
exist" error and the session — hence `get_current_directory` — is
unchanged. -/
theorem change_directory_missing_no_mutation (fs : FsNode) (fm : FileManager)
    (u : Nat) (t : String)
    (h : is_dir fs (if t = ".." then
            (Path.parent (fm.get_current_directory_for_user u)).getD
              (fm.get_current_directory_for_user u)
          else Path.join (fm.get_current_directory_for_user u) t) = false) :
    FileManager.change_directory fs fm u t
      = (.error (BotError.FileError "Directory does not exist"), fm)
    ∧ ((FileManager.change_directory fs fm u t).2).get_current_directory u
      = fm.get_current_directory u := by
  have hmain : FileManager.change_directory fs fm u t
      = (.error (BotError.FileError "Directory does not exist"), fm) := by
    simp [FileManager.change_directory, h]
  exact ⟨hmain, by rw [hmain]⟩

/-- C6 witness: changing into a nonexistent directory from the root. -/
theorem change_directory_missing_no_mutation_witness :
    FileManager.change_directory (.dir []) FileManager.new 3 "nope"
      = (.error (BotError.FileError "Directory does not exist"),
         FileManager.new) :=
  (change_directory_missing_no_mutation (.dir []) FileManager.new 3 "nope"
    (by decide)).1

/-- C7: from a current directory `d` that canonicalizes to `S` and
contains an existing subdirectory "subdir" (the tree model has no
symlinks), `change_directory(A, "subdir")` then `change_directory(A,
"..")` both succeed and leave the session at `S`, the canonicalized form
of `d`. -/
theorem change_directory_subdir_then_parent (fs : FsNode) (fm : FileManager)
    (A : Nat) (d S : Path) (es es' : List (String × FsNode))
    (hd : fm.get_current_directory_for_user A = d)
    (hres : canonicalize fs d = some S)
    (hS : fs.walk S = some (.dir es))
    (hsub : findEntry es "subdir" = some (.dir es')) :
    ∃ fm1 fm2,
      FileManager.change_directory fs fm A "subdir" = (.ok (), fm1)
      ∧ FileManager.change_directory fs fm1 A ".." = (.ok (), fm2)
      ∧ fm2.get_current_directory A = S := by
  have hsubne : ("subdir" : String) ≠ ".." := by decide
  have hchild := canonicalize_child fs d S "subdir" hsubne hres es _ hS hsub
  have hfix := canonicalize_fixed fs d S hres
  have hjoin : Path.join d "subdir" = d ++ ["subdir"] := by
    have h1 : isAbsolute "subdir" = false := by decide
    have h2 : splitPath "subdir" = ["subdir"] := by decide
    simp [Path.join, h1, h2]
  have hisdir1 : is_dir fs (d ++ ["subdir"]) = true := by
    simp [is_dir, resolveNode, hchild.1, hchild.2]
  refine ⟨⟨fun u => if u = A then some (S ++ ["subdir"]) else fm.sessions u⟩,
          ⟨fun u => if u = A then some S
            else if u = A then some (S ++ ["subdir"]) else fm.sessions u⟩,
          ?_, ?_, ?_⟩
  · simp [FileManager.change_directory, hd, hsubne, hjoin, hisdir1, hchild.1]
  · have hcur1 : (⟨fun u => if u = A then some (S ++ ["subdir"])
        else fm.sessions u⟩ : FileManager).get_current_directory_for_user A
        = S ++ ["subdir"] := by
      simp [FileManager.get_current_directory_for_user]
    have hisdir2 : is_dir fs S = true := by
      simp [is_dir, resolveNode, hfix.1, hS]
    simp [FileManager.change_directory, hcur1, parent_concat, hisdir2,
      hfix.1]
  · simp [FileManager.get_current_directory,
      FileManager.get_current_directory_for_user]

/-- C7 witness in the concrete tree `/home/subdir`. -/
theorem change_directory_subdir_then_parent_witness :
    ∃ fm1 fm2,
      FileManager.change_directory nestFs nestFm 1 "subdir" = (.ok (), fm1)
      ∧ FileManager.change_directory nestFs fm1 1 ".." = (.ok (), fm2)
      ∧ fm2.get_current_directory 1 = ["home"] :=
  change_directory_subdir_then_parent nestFs nestFm 1 ["home"] ["home"]
    [("subdir", .dir [])] [] rfl (by decide) rfl rfl

/-- C8: `change_directory(A, t)` — succeeding or failing — never touches
another identity's session entry or current directory. -/
theorem change_directory_frame (fs : FsNode) (fm : FileManager)
    (A B : Nat) (t : String) (h : A ≠ B) :
    ((FileManager.change_directory fs fm A t).2).sessions B = fm.sessions B
    ∧ ((FileManager.change_directory fs fm A t).2).get_current_directory B
      = fm.get_current_directory B := by
  have hs : ((FileManager.change_directory fs fm A t).2).sessions B
      = fm.sessions B := by
    simp only [FileManager.change_directory]
    repeat' split
    all_goals simp [Ne.symm h]
  refine ⟨hs, ?_⟩
  simp [FileManager.get_current_directory,
    FileManager.get_current_directory_for_user, hs]

/-- C8 witness: identity 1 changes directory, identity 2 is untouched. -/
theorem change_directory_frame_witness :
    ((FileManager.change_directory nestFs nestFm 1 "subdir").2).sessions 2
      = nestFm.sessions 2
    ∧ ((FileManager.change_directory nestFs nestFm 1 "subdir").2).get_current_directory 2
      = nestFm.get_current_directory 2 :=
  change_directory_frame nestFs nestFm 1 2 "subdir" (by decide)

/-- C9: `change_directory(A, "..")` from the root succeeds and leaves A's
current directory unchanged (the root is its own parent). -/
theorem change_directory_root_parent_noop (es : List (String × FsNode))
    (fm : FileManager) (A : Nat)
    (h : fm.get_current_directory_for_user A = []) :
    (FileManager.change_directory (.dir es) fm A "..").1 = .ok ()
    ∧ ((FileManager.change_directory (.dir es) fm A "..").2).get_current_directory A
      = fm.get_current_directory A := by
  have hmain : FileManager.change_directory (.dir es) fm A ".."
      = (.ok (), ⟨fun u => if u = A then some [] else fm.sessions u⟩) := by
    simp [FileManager.change_directory, h, Path.parent, is_dir, resolveNode,
      canonicalize, resolveComps, FsNode.walk]
  rw [hmain]
  refine ⟨rfl, ?_⟩
  have h' : (fm.sessions A).getD [] = ([] : Path) := h
  simp [FileManager.get_current_directory,
    FileManager.get_current_directory_for_user, h']

/-- C9 witness: a fresh session sits at the root. -/
theorem change_directory_root_parent_noop_witness :
    (FileManager.change_directory (.dir []) FileManager.new 5 "..").1 = .ok ()
    ∧ ((FileManager.change_directory (.dir []) FileManager.new 5 "..").2).get_current_directory 5
      = FileManager.new.get_current_directory 5 :=
  change_directory_root_parent_noop [] FileManager.new 5 rfl

/-- C10: `get_file_path` is a plain join on the current directory with no
containment check — an absolute name replaces the current directory, and
in the concrete tree with `/home` and `/secret` a session sitting in
`/home` can probe and address `/secret` through the name "../secret",
whose resolution lies outside the session directory. -/
theorem get_file_path_no_containment :
    (∀ (fm : FileManager) (i : Nat) (name : String),
        fm.get_file_path i name
          = Path.join (fm.get_current_directory i) name)
    ∧ (∀ (fm : FileManager) (i : Nat) (t : String), isAbsolute t = true →
        fm.get_file_path i t = splitPath t)
    ∧ FileManager.get_file_path escapeFm 1 "../secret"
        = ["home", "..", "secret"]
    ∧ FileManager.file_exists escapeFs escapeFm 1 "../secret" = true
    ∧ FileManager.is_file escapeFs escapeFm 1 "../secret" = true
    ∧ canonicalize escapeFs (FileManager.get_file_path escapeFm 1 "../secret")
        = some ["secret"]
    ∧ FileManager.get_file_path escapeFm 1 "/etc" = ["etc"] := by
  refine ⟨fun fm i name => rfl, ?_, ?_, ?_, ?_, ?_, ?_⟩
  · intro fm i t ht
    simp [FileManager.get_file_path, Path.join, ht]
  · decide
  · decide
  · decide
  · decide
  · decide

/-- C10 witness: an absolute filename replaces the session directory. -/
theorem get_file_path_no_containment_witness :
    isAbsolute "/etc" = true
    ∧ FileManager.get_file_path escapeFm 2 "/etc" = splitPath "/etc" :=
  ⟨by decide, get_file_path_no_containment.2.1 escapeFm 2 "/etc" (by decide)⟩

end Telebash
